import Mathlib

/-!
Verification development for the BarcodePDF repository (src/main.py).

The embedding models the document-to-identifier pipeline:
  - `extract_images_from_pdf` : PDF rasterization into candidate images
    (embedded images per page in object order, then the full-page render),
    together with whether the document handle was left open;
  - `decodeImage` / `readBarcodeScan` / `read_barcode_from_pdf` : the
    two-stage barcode decoder and the first-success scan over candidates;
  - `process_pdf` : the file-processing controller, producing an outcome
    and a trace of filesystem/UI actions;
  - `on_created` / `process_existing_pdfs_targets` : the watcher entry
    points that filter on the ".pdf" suffix.

External effects (PyMuPDF, pyzbar, OpenCV, shutil) are modelled as
environment fields recording, for each call the Python code makes, whether
it returns normally (and with what value) or raises.
-/

/-- Bounding box of a decoded barcode, as reported by the decoder:
fields left, top, width, height (integers). -/
structure Rect where
  left : Int
  top : Int
  width : Int
  height : Int
deriving DecidableEq, Repr

/-- One decoded barcode: its bounding box and its decoded text payload. -/
structure Barcode where
  rect : Rect
  data : String
deriving DecidableEq, Repr

/-- The sort key used at main.py line 122: rect.top + rect.left. -/
def rectKey (b : Barcode) : Int := b.rect.top + b.rect.left

/-- Python min(barcodes, key = top + left) over the nonempty list b :: bs:
keep the earliest element, replacing only on a strictly smaller key, so the
first element attaining the minimal key wins. -/
def minByTopLeft (b : Barcode) (bs : List Barcode) : Barcode :=
  bs.foldl (fun best x => if rectKey x < rectKey best then x else best) b

instance exceptDecEq {ε : Type} {α : Type} [DecidableEq ε] [DecidableEq α] :
    DecidableEq (Except ε α) := fun a b =>
  match a, b with
  | Except.error e, Except.error f =>
    if h : e = f then isTrue (by rw [h]) else isFalse (fun hh => by cases hh; exact h rfl)
  | Except.error _, Except.ok _ => isFalse (fun hh => by cases hh)
  | Except.ok _, Except.error _ => isFalse (fun hh => by cases hh)
  | Except.ok x, Except.ok y =>
    if h : x = y then isTrue (by rw [h]) else isFalse (fun hh => by cases hh; exact h rfl)

/-- One candidate image as seen by the decoding loop of
read_barcode_from_pdf (main.py lines 97-128): the numpy shape of the array,
and the outcome of each of the two decode calls: Except.error models the
call raising, Except.ok bs models it returning the match list bs.
stage1 is decode(gray, CODE128) (line 113); stage2 is the retry
decode(thresh, CODE128) after denoising and Otsu thresholding (line 118),
consulted only when stage1 returned an empty list. -/
structure ImageEnv where
  shape : List Nat
  stage1 : Except Unit (List Barcode)
  stage2 : Except Unit (List Barcode)
deriving DecidableEq, Repr

/-- Disposition of one candidate image inside the scan loop. -/
inductive ImgResult where
  | found (payload : String)
  | noBarcode
  | skippedShape
  | caughtError
deriving DecidableEq, Repr

/-- The effective barcode list of the two-stage decode: stage1 result if
it raised or was nonempty, otherwise the stage2 result (main.py 113-118). -/
def effectiveMatches (env : ImageEnv) : Except Unit (List Barcode) :=
  match env.stage1 with
  | Except.error e => Except.error e
  | Except.ok [] => env.stage2
  | Except.ok bs => Except.ok bs

/-- The try block of the loop body (main.py 112-128): any raise is caught
and the loop continues; an empty final list falls through to the next
candidate; a nonempty list selects the top-left-most barcode and returns
its payload. -/
def decodeCore (env : ImageEnv) : ImgResult :=
  match effectiveMatches env with
  | Except.error _ => ImgResult.caughtError
  | Except.ok [] => ImgResult.noBarcode
  | Except.ok (b :: bs) => ImgResult.found (minByTopLeft b bs).data

/-- One full loop iteration (main.py 98-128): arrays with fewer than 2 or
more than 3 dimensions are skipped before any decode is attempted;
otherwise the two-stage decode runs. -/
def decodeImage (env : ImageEnv) : ImgResult :=
  if env.shape.length < 2 then ImgResult.skippedShape
  else if env.shape.length = 2 then decodeCore env
  else if env.shape.length = 3 then decodeCore env
  else ImgResult.skippedShape

/-- Whether the numpy shape passes the dimension filter of the loop. -/
def shapeOk (env : ImageEnv) : Bool :=
  env.shape.length == 2 || env.shape.length == 3

/-- The payload a candidate contributes to the scan: some payload exactly
when the decode found a barcode on it, none otherwise. -/
def payloadOf (env : ImageEnv) : Option String :=
  match decodeImage env with
  | ImgResult.found s => some s
  | _ => none

/-- The for loop of read_barcode_from_pdf: return the payload of the first
candidate on which the decode succeeds; any other disposition (shape skip,
no match, caught exception) continues with the next candidate; None after
the list is exhausted (main.py 97-130). -/
def readBarcodeScan : List ImageEnv → Option String
  | [] => none
  | i :: rest =>
    match decodeImage i with
    | ImgResult.found s => some s
    | _ => readBarcodeScan rest

/-- One page of the opened PDF: each embedded raster image extraction
(extract_image + Image.open + convert + enhance, main.py 72-80) may raise
or produce a candidate image, and the full-page render (get_pixmap +
frombytes + convert + enhance, main.py 83-88) likewise. -/
structure PdfPage where
  embedded : List (Except Unit ImageEnv)
  render : Except Unit ImageEnv
deriving Repr

/-- A PDF document as seen through fitz.open: the open call either raises
or yields the page list. -/
structure PdfDoc where
  openResult : Except Unit (List PdfPage)
deriving Repr

/-- Sequential extraction of the embedded images of one page, stopping at
the first raise (the exception propagates out of the for loop). -/
def extractEmbedded : List (Except Unit ImageEnv) → Except Unit (List ImageEnv)
  | [] => Except.ok []
  | Except.error e :: _ => Except.error e
  | Except.ok i :: rest =>
    match extractEmbedded rest with
    | Except.error e => Except.error e
    | Except.ok is => Except.ok (i :: is)

/-- Candidates contributed by one page: embedded images in object order,
then the full-page render (main.py 68-88). -/
def extractPage (p : PdfPage) : Except Unit (List ImageEnv) :=
  match extractEmbedded p.embedded with
  | Except.error e => Except.error e
  | Except.ok embs =>
    match p.render with
    | Except.error e => Except.error e
    | Except.ok r => Except.ok (embs ++ [r])

/-- Candidates of all pages, in page order. -/
def extractPages : List PdfPage → Except Unit (List ImageEnv)
  | [] => Except.ok []
  | p :: ps =>
    match extractPage p with
    | Except.error e => Except.error e
    | Except.ok is =>
      match extractPages ps with
      | Except.error e => Except.error e
      | Except.ok rest => Except.ok (is ++ rest)

/-- extract_images_from_pdf (main.py 64-91). First component: the returned
candidate list, or the exception that propagated. Second component: whether
the fitz document handle was left open at the moment the call ended; the
code calls close() only after the loop completes (line 90), with no
try/finally, so an exception raised mid-extraction leaves the handle open,
while a failed fitz.open never created a handle. -/
def extract_images_from_pdf (doc : PdfDoc) : Except Unit (List ImageEnv) × Bool :=
  match doc.openResult with
  | Except.error e => (Except.error e, false)
  | Except.ok pages =>
    match extractPages pages with
    | Except.error e => (Except.error e, true)
    | Except.ok imgs => (Except.ok imgs, false)

/-- read_barcode_from_pdf (main.py 94-130): extraction errors propagate to
the caller; otherwise the scan over the candidate list decides the result. -/
def read_barcode_from_pdf (doc : PdfDoc) : Except Unit (Option String) :=
  match (extract_images_from_pdf doc).1 with
  | Except.error e => Except.error e
  | Except.ok imgs => Except.ok (readBarcodeScan imgs)

/-- Tag identifying which status_callback message was emitted. -/
inductive StatusMsg where
  | fileNotFound
  | processedDone
  | barcodeNotFound
  | movedToError
  | processingError
  | moveFailed
  | newPdfDetected
deriving DecidableEq, Repr

/-- One observable action of process_pdf, in emission order: a
status_callback invocation, a shutil.move call (with whether it returned
normally), or an open_error_folder call. -/
inductive Act where
  | status (m : StatusMsg)
  | moveAttempt (src dst : String) (ok : Bool)
  | openFolder (d : String)
deriving DecidableEq, Repr

def isMove : Act → Bool
  | Act.moveAttempt _ _ _ => true
  | _ => false

def isStatus : Act → Bool
  | Act.status _ => true
  | _ => false

/-- Outcome tag of one process_pdf invocation, per branch taken. -/
inductive POutcome where
  | success (id : String)
  | notFound
  | skipped
  | failed
deriving DecidableEq, Repr

/-- os.path.join, abstracted to separator concatenation. -/
def joinPath (d n : String) : String := d ++ "/" ++ n

/-- Environment of one process_pdf invocation: the document behind
pdf_path, the path strings, and the result of each external call the code
makes: the two os.path.exists checks (line 147 and line 180), and whether
each shutil.move call returns normally (true) or raises (false). -/
structure ProcEnv where
  doc : PdfDoc
  pdfPath : String
  baseName : String
  errorDir : String
  doneDir : String
  exists1 : Bool
  moveDoneOk : Bool
  moveErrOk : Bool
  exists2 : Bool
  moveRecoverOk : Bool
  autoOpen : Bool

/-- The except handler of process_pdf (main.py 175-190): report the error,
then, if the file still exists, attempt one recovery move into the error
directory; a raise from that recovery move is caught and reported, never
propagated. pre is the trace accumulated before the exception. -/
def handleExc (env : ProcEnv) (pre : List Act) : POutcome × List Act :=
  let base := pre ++ [Act.status StatusMsg.processingError]
  if env.exists2 = true then
    let dst := joinPath env.errorDir env.baseName
    if env.moveRecoverOk = true then
      (POutcome.failed,
        base ++ [Act.moveAttempt env.pdfPath dst true, Act.status StatusMsg.movedToError]
          ++ (if env.autoOpen = true then [Act.openFolder env.errorDir] else []))
    else
      (POutcome.failed,
        base ++ [Act.moveAttempt env.pdfPath dst false, Act.status StatusMsg.moveFailed])
  else (POutcome.failed, base)

/-- Python truthiness of the classification result, as tested by the
bare-name condition at main.py line 156: false for None and false for the
empty string, true for any non-empty payload. -/
def pyTruthy : Option String → Bool
  | none => false
  | some s => !s.data.isEmpty

/-- The truthy branch of process_pdf (main.py 157-162): move the file to
the done directory under the decoded name; a raise from the move lands in
the except handler. -/
def moveDoneBranch (env : ProcEnv) (data : String) : POutcome × List Act :=
  let dst := joinPath env.doneDir (data ++ ".pdf")
  if env.moveDoneOk = true then
    (POutcome.success data,
      [Act.moveAttempt env.pdfPath dst true, Act.status StatusMsg.processedDone])
  else
    handleExc env [Act.moveAttempt env.pdfPath dst false]

/-- The falsy branch of process_pdf (main.py 163-173): report, move the
file under its unchanged basename into the error directory, report again
and optionally open the folder; a raise from the move lands in the except
handler. -/
def moveErrBranch (env : ProcEnv) : POutcome × List Act :=
  let dst := joinPath env.errorDir env.baseName
  if env.moveErrOk = true then
    (POutcome.notFound,
      [Act.status StatusMsg.barcodeNotFound,
       Act.moveAttempt env.pdfPath dst true,
       Act.status StatusMsg.movedToError]
        ++ (if env.autoOpen = true then [Act.openFolder env.errorDir] else []))
  else
    handleExc env [Act.status StatusMsg.barcodeNotFound,
                   Act.moveAttempt env.pdfPath dst false]

/-- process_pdf (main.py 145-191): missing file short-circuits; otherwise
classify and branch on the truthiness of the result (main.py line 156):
a non-empty payload is moved to done under the decoded name, while None
and the empty payload are both routed to the error directory; any raise
from classification or a move lands in the except handler. -/
def process_pdf (env : ProcEnv) : POutcome × List Act :=
  if env.exists1 = false then
    (POutcome.skipped, [Act.status StatusMsg.fileNotFound])
  else
    match read_barcode_from_pdf env.doc with
    | Except.ok (some data) =>
      if pyTruthy (some data) = true then moveDoneBranch env data
      else moveErrBranch env
    | Except.ok none => moveErrBranch env
    | Except.error _ => handleExc env []

/-- Flat model of the filesystem: association list from absolute path to
file content; the first binding for a path is the visible one. -/
abbrev FS : Type := List (String × String)

def fsLookup : FS → String → Option String
  | [], _ => none
  | (k, v) :: rest, key => if k = key then some v else fsLookup rest key

def fsErase : FS → String → FS
  | [], _ => []
  | kv :: rest, key => if kv.1 = key then fsErase rest key else kv :: fsErase rest key

/-- shutil.move semantics on the flat filesystem: when the source exists,
its content reappears at the destination (replacing anything previously
there) and disappears from the source. -/
def moveFile (fs : FS) (src dst : String) : FS :=
  match fsLookup fs src with
  | some c => (dst, c) :: fsErase (fsErase fs src) dst
  | none => fs

/-- Replay the successful moves of a trace over a filesystem. -/
def applyActions (fs : FS) : List Act → FS
  | [] => fs
  | Act.moveAttempt src dst true :: rest => applyActions (moveFile fs src dst) rest
  | _ :: rest => applyActions fs rest

/-- Python str.lower for the filename comparison. -/
def pyLower (s : String) : List Char := s.data.map Char.toLower

/-- The ".pdf" filter used by both watcher entry points:
src_path.lower().endswith(".pdf") (main.py 203 and 340). -/
def isPdfName (s : String) : Bool := List.isSuffixOf ".pdf".data (pyLower s)

/-- PDFHandler.on_created (main.py 202-212): for a non-directory event on
a path passing the ".pdf" filter, report the detection and run
process_pdf; otherwise do nothing at all. The trace returned is every
action the handler performs. -/
def on_created (isDir : Bool) (srcPath : String) (env : ProcEnv) : List Act :=
  if !isDir && isPdfName srcPath then
    Act.status StatusMsg.newPdfDetected :: (process_pdf env).2
  else []

/-- The set of filenames the startup pass (process_existing_pdfs,
main.py 336-346) invokes process_pdf on: the directory listing filtered by
the ".pdf" suffix test. -/
def process_existing_pdfs_targets (listing : List String) : List String :=
  listing.filter isPdfName

theorem minByTopLeft_cons (b x : Barcode) (xs : List Barcode) :
    minByTopLeft b (x :: xs) = minByTopLeft (if rectKey x < rectKey b then x else b) xs := rfl

theorem minByTopLeft_mem (b : Barcode) (bs : List Barcode) :
    minByTopLeft b bs = b ∨ minByTopLeft b bs ∈ bs := by
  induction bs generalizing b with
  | nil => exact Or.inl rfl
  | cons x xs ih =>
    rw [minByTopLeft_cons]
    by_cases hlt : rectKey x < rectKey b
    · rw [if_pos hlt]
      rcases ih x with h | h
      · exact Or.inr (by rw [h]; exact List.mem_cons_self x xs)
      · exact Or.inr (List.mem_cons_of_mem x h)
    · rw [if_neg hlt]
      rcases ih b with h | h
      · exact Or.inl h
      · exact Or.inr (List.mem_cons_of_mem x h)

theorem minByTopLeft_le_head (b : Barcode) (bs : List Barcode) :
    rectKey (minByTopLeft b bs) ≤ rectKey b := by
  induction bs generalizing b with
  | nil => exact le_refl _
  | cons x xs ih =>
    rw [minByTopLeft_cons]
    by_cases hlt : rectKey x < rectKey b
    · rw [if_pos hlt]
      exact le_trans (ih x) (le_of_lt hlt)
    · rw [if_neg hlt]
      exact ih b

theorem minByTopLeft_le_mem (b : Barcode) (bs : List Barcode) :
    ∀ x ∈ bs, rectKey (minByTopLeft b bs) ≤ rectKey x := by
  induction bs generalizing b with
  | nil => intro x hx; cases hx
  | cons y ys ih =>
    intro x hx
    rw [minByTopLeft_cons]
    rcases List.mem_cons.mp hx with h | h
    · subst h
      by_cases hlt : rectKey x < rectKey b
      · rw [if_pos hlt]; exact minByTopLeft_le_head x ys
      · rw [if_neg hlt]
        exact le_trans (minByTopLeft_le_head b ys) (le_of_not_lt hlt)
    · by_cases hlt : rectKey y < rectKey b
      · rw [if_pos hlt]; exact ih y x h
      · rw [if_neg hlt]; exact ih b x h

theorem findCons_pos {α : Type} (p : α → Bool) (a : α) (l : List α) (h : p a = true) :
    List.find? p (a :: l) = some a := by
  simp [List.find?, h]

theorem findCons_neg {α : Type} (p : α → Bool) (a : α) (l : List α) (h : p a = false) :
    List.find? p (a :: l) = List.find? p l := by
  simp [List.find?, h]

theorem minByTopLeft_first (b : Barcode) (bs : List Barcode) :
    (b :: bs).find? (fun x => rectKey x == rectKey (minByTopLeft b bs))
      = some (minByTopLeft b bs) := by
  induction bs generalizing b with
  | nil =>
    simp [minByTopLeft, List.find?]
  | cons x xs ih =>
    rw [minByTopLeft_cons]
    by_cases hlt : rectKey x < rectKey b
    · rw [if_pos hlt]
      have hmx : rectKey (minByTopLeft x xs) ≤ rectKey x := minByTopLeft_le_head x xs
      have hb : (rectKey b == rectKey (minByTopLeft x xs)) = false := by
        simp only [beq_eq_false_iff_ne, ne_eq]
        intro hc; omega
      rw [findCons_neg (fun y => rectKey y == rectKey (minByTopLeft x xs)) b (x :: xs) hb]
      exact ih x
    · rw [if_neg hlt]
      have hble : rectKey b ≤ rectKey x := le_of_not_lt hlt
      have hmb : rectKey (minByTopLeft b xs) ≤ rectKey b := minByTopLeft_le_head b xs
      by_cases hbm : rectKey b = rectKey (minByTopLeft b xs)
      · have hpb : (rectKey b == rectKey (minByTopLeft b xs)) = true := by
          simp only [beq_iff_eq]; exact hbm
        have h1 := ih b
        rw [findCons_pos (fun y => rectKey y == rectKey (minByTopLeft b xs)) b xs hpb] at h1
        rw [findCons_pos (fun y => rectKey y == rectKey (minByTopLeft b xs)) b (x :: xs) hpb]
        exact h1
      · have hpb : (rectKey b == rectKey (minByTopLeft b xs)) = false := by
          simp only [beq_eq_false_iff_ne, ne_eq]; exact hbm
        have hpx : (rectKey x == rectKey (minByTopLeft b xs)) = false := by
          simp only [beq_eq_false_iff_ne, ne_eq]
          intro hc; omega
        have h1 := ih b
        rw [findCons_neg (fun y => rectKey y == rectKey (minByTopLeft b xs)) b xs hpb] at h1
        rw [findCons_neg (fun y => rectKey y == rectKey (minByTopLeft b xs)) b (x :: xs) hpb]
        rw [findCons_neg (fun y => rectKey y == rectKey (minByTopLeft b xs)) x xs hpx]
        exact h1

/-- C2: when the decoder finds one or more barcode matches on an image
(from either stage), exactly one is selected: the returned payload is that
of minByTopLeft, which is one of the matches, minimizes top + left over
all matches, and is the first match in decoder iteration order attaining
that minimal sum. -/
theorem barcode_selection_topleft (env : ImageEnv) (b : Barcode) (bs : List Barcode)
    (hshape : shapeOk env = true)
    (hm : effectiveMatches env = Except.ok (b :: bs)) :
    decodeImage env = ImgResult.found ((minByTopLeft b bs).data) ∧
    (minByTopLeft b bs = b ∨ minByTopLeft b bs ∈ bs) ∧
    (∀ x ∈ b :: bs, rectKey (minByTopLeft b bs) ≤ rectKey x) ∧
    (b :: bs).find? (fun x => rectKey x == rectKey (minByTopLeft b bs))
      = some (minByTopLeft b bs) := by
  have hd : decodeCore env = ImgResult.found ((minByTopLeft b bs).data) := by
    unfold decodeCore; rw [hm]
  refine ⟨?_, minByTopLeft_mem b bs, ?_, minByTopLeft_first b bs⟩
  · have hsh : env.shape.length = 2 ∨ env.shape.length = 3 := by
      have := hshape
      unfold shapeOk at this
      simpa using this
    unfold decodeImage
    rcases hsh with h | h <;> simp [h, hd]
  · intro x hx
    rcases List.mem_cons.mp hx with h | h
    · rw [h]; exact minByTopLeft_le_head b bs
    · exact minByTopLeft_le_mem b bs x h

/-- A barcode at left 5, top 10: sum 15, earlier in iteration order. -/
def bcA : Barcode := ⟨⟨5, 10, 30, 12⟩, "A"⟩

/-- A barcode at left 13, top 2: sum 15 as well, later in iteration order. -/
def bcB : Barcode := ⟨⟨13, 2, 30, 12⟩, "B"⟩

/-- A grayscale candidate whose direct decode reports both tied barcodes. -/
def envC2 : ImageEnv := ⟨[4, 6], Except.ok [bcA, bcB], Except.ok []⟩

theorem barcode_selection_topleft_witness :
    decodeImage envC2 = ImgResult.found ((minByTopLeft bcA [bcB]).data) ∧
    (minByTopLeft bcA [bcB] = bcA ∨ minByTopLeft bcA [bcB] ∈ [bcB]) ∧
    (∀ x ∈ bcA :: [bcB], rectKey (minByTopLeft bcA [bcB]) ≤ rectKey x) ∧
    (bcA :: [bcB]).find? (fun x => rectKey x == rectKey (minByTopLeft bcA [bcB]))
      = some (minByTopLeft bcA [bcB]) :=
  barcode_selection_topleft envC2 bcA [bcB] (by decide) (by decide)

theorem decodeImage_eq_core (env : ImageEnv) (hshape : shapeOk env = true) :
    decodeImage env = decodeCore env := by
  have hsh : env.shape.length = 2 ∨ env.shape.length = 3 := by
    unfold shapeOk at hshape; simpa using hshape
  unfold decodeImage
  rcases hsh with h | h <;> simp [h]

theorem decodeImage_stage2_congr (env : ImageEnv) (s2 : Except Unit (List Barcode))
    (h : effectiveMatches { env with stage2 := s2 } = effectiveMatches env) :
    decodeImage { env with stage2 := s2 } = decodeImage env := by
  simp only [decodeImage, decodeCore, h]

/-- C4: the stage 2 retry (denoise, Otsu threshold, decode restricted to
CODE-128) is consulted if and only if the stage 1 direct decode returned
normally with zero matches: when stage 1 returned a nonempty list or
raised, the result is independent of the stage 2 outcome; when stage 1
returned an empty list, the result is exactly the disposition of the
stage 2 outcome; and when stage 2 also returns zero matches, the image is
reported as no match, not as an error. -/
theorem decoder_stage2_iff (env : ImageEnv) (hshape : shapeOk env = true) :
    (∀ b bs, env.stage1 = Except.ok (b :: bs) →
      ∀ s2, decodeImage { env with stage2 := s2 } = decodeImage env) ∧
    (∀ e, env.stage1 = Except.error e →
      ∀ s2, decodeImage { env with stage2 := s2 } = decodeImage env) ∧
    (env.stage1 = Except.ok [] →
      decodeImage env = (match env.stage2 with
        | Except.error _ => ImgResult.caughtError
        | Except.ok [] => ImgResult.noBarcode
        | Except.ok (b :: bs) => ImgResult.found ((minByTopLeft b bs).data))) ∧
    (env.stage1 = Except.ok [] → env.stage2 = Except.ok [] →
      decodeImage env = ImgResult.noBarcode) := by
  refine ⟨?_, ?_, ?_, ?_⟩
  · intro b bs h1 s2
    apply decodeImage_stage2_congr
    simp [effectiveMatches, h1]
  · intro e h1 s2
    apply decodeImage_stage2_congr
    simp [effectiveMatches, h1]
  · intro h1
    rw [decodeImage_eq_core env hshape]
    simp only [decodeCore, effectiveMatches, h1]
  · intro h1 h2
    rw [decodeImage_eq_core env hshape]
    simp only [decodeCore, effectiveMatches, h1, h2]

/-- A candidate whose decodes both return normally with no matches. -/
def envBlank : ImageEnv := ⟨[8, 8], Except.ok [], Except.ok []⟩

theorem decoder_stage2_iff_witness :
    decodeImage envBlank = ImgResult.noBarcode ∧
    decodeImage { envBlank with stage2 := Except.error () } = ImgResult.caughtError :=
  ⟨(decoder_stage2_iff envBlank (by decide)).2.2.2 rfl rfl, by decide⟩

/-- C5: a candidate image on which the try block catches a raised decode
error is treated like a no-match candidate: removing it from the candidate
sequence does not change the classification result, wherever it sits, so a
single bad candidate never aborts or alters the scan over the others. -/
theorem decode_error_recovered (i : ImageEnv)
    (h : decodeImage i = ImgResult.caughtError) :
    ∀ pre post, readBarcodeScan (pre ++ i :: post) = readBarcodeScan (pre ++ post) := by
  intro pre post
  induction pre with
  | nil =>
    simp only [List.nil_append]
    simp [readBarcodeScan, h]
  | cons p ps ih =>
    simp only [List.cons_append]
    cases hd : decodeImage p with
    | found s => simp [readBarcodeScan, hd]
    | noBarcode => simp [readBarcodeScan, hd]; exact ih
    | skippedShape => simp [readBarcodeScan, hd]; exact ih
    | caughtError => simp [readBarcodeScan, hd]; exact ih

/-- A valid-shape candidate whose direct decode raises. -/
def envRaise : ImageEnv := ⟨[6, 9], Except.error (), Except.ok []⟩

/-- A candidate that decodes to payload Z on the second stage. -/
def envZ : ImageEnv := ⟨[6, 9], Except.ok [], Except.ok [⟨⟨1, 1, 10, 10⟩, "Z"⟩]⟩

theorem decode_error_recovered_witness :
    decodeImage envRaise = ImgResult.caughtError ∧
    readBarcodeScan ([envBlank] ++ envRaise :: [envZ])
      = readBarcodeScan ([envBlank] ++ [envZ]) :=
  ⟨by decide, decode_error_recovered envRaise (by decide) [envBlank] [envZ]⟩

theorem readBarcodeScan_eq_findSome (imgs : List ImageEnv) :
    readBarcodeScan imgs = imgs.findSome? payloadOf := by
  induction imgs with
  | nil => rfl
  | cons i rest ih =>
    cases hd : decodeImage i with
    | found s => simp [readBarcodeScan, List.findSome?, payloadOf, hd]
    | noBarcode => simp [readBarcodeScan, List.findSome?, payloadOf, hd, ih]
    | skippedShape => simp [readBarcodeScan, List.findSome?, payloadOf, hd, ih]
    | caughtError => simp [readBarcodeScan, List.findSome?, payloadOf, hd, ih]

theorem findSome_none_iff {α β : Type} (f : α → Option β) (l : List α) :
    l.findSome? f = none ↔ ∀ x ∈ l, f x = none := by
  induction l with
  | nil => simp
  | cons a rest ih =>
    cases ha : f a with
    | some b => simp [List.findSome?, ha]
    | none => simp [List.findSome?, ha, ih]

theorem findSome_append_first {α β : Type} (f : α → Option β) (pre post : List α)
    (i : α) (s : β) (hpre : ∀ j ∈ pre, f j = none) (hi : f i = some s) :
    (pre ++ i :: post).findSome? f = some s := by
  induction pre with
  | nil => simp [List.findSome?, hi]
  | cons p ps ih =>
    have hp : f p = none := hpre p (List.mem_cons_self p ps)
    simp only [List.cons_append]
    simp [List.findSome?, hp]
    exact ih (fun j hj => hpre j (List.mem_cons_of_mem p hj))

/-- A page built from extraction steps that all return normally. -/
def mkPage (embs : List ImageEnv) (r : ImageEnv) : PdfPage :=
  ⟨embs.map Except.ok, Except.ok r⟩

/-- A document whose open and every extraction step return normally:
each pair holds the embedded images of one page and its full-page render. -/
def mkDoc (ps : List (List ImageEnv × ImageEnv)) : PdfDoc :=
  ⟨Except.ok (ps.map (fun pr => mkPage pr.1 pr.2))⟩

theorem extractEmbedded_pure (embs : List ImageEnv) :
    extractEmbedded (embs.map Except.ok) = Except.ok embs := by
  induction embs with
  | nil => rfl
  | cons e es ih => simp [extractEmbedded, ih]

theorem extract_pure_order (ps : List (List ImageEnv × ImageEnv)) :
    (extract_images_from_pdf (mkDoc ps)).1
      = Except.ok (ps.flatMap (fun pr => pr.1 ++ [pr.2])) := by
  suffices h : extractPages (ps.map (fun pr => mkPage pr.1 pr.2))
      = Except.ok (ps.flatMap (fun pr => pr.1 ++ [pr.2])) by
    simp [extract_images_from_pdf, mkDoc, h]
  induction ps with
  | nil => rfl
  | cons pr rest ih =>
    simp only [mkPage] at ih
    simp [extractPages, extractPage, mkPage, extractEmbedded_pure, ih]

/-- C1: when extraction succeeds with candidate list imgs, classification
returns the payload of the first candidate that decodes successfully
(List.findSome? over the candidates in rasterization order), returns none
only when every candidate fails, and any candidates after the first
success are never consulted; and for a document whose extraction steps all
succeed, the candidate order is: for each page in page order, its embedded
images in object order, then its full-page render. -/
theorem classify_first_success (doc : PdfDoc) (imgs : List ImageEnv)
    (hx : (extract_images_from_pdf doc).1 = Except.ok imgs) :
    read_barcode_from_pdf doc = Except.ok (imgs.findSome? payloadOf) ∧
    (read_barcode_from_pdf doc = Except.ok none ↔ ∀ i ∈ imgs, payloadOf i = none) ∧
    (∀ pre i post s, imgs = pre ++ i :: post → (∀ j ∈ pre, payloadOf j = none) →
      payloadOf i = some s → read_barcode_from_pdf doc = Except.ok (some s)) ∧
    (∀ qs, (extract_images_from_pdf (mkDoc qs)).1
      = Except.ok (qs.flatMap (fun pr => pr.1 ++ [pr.2]))) := by
  have hr : read_barcode_from_pdf doc = Except.ok (imgs.findSome? payloadOf) := by
    unfold read_barcode_from_pdf
    rw [hx]
    show Except.ok (readBarcodeScan imgs) = _
    rw [readBarcodeScan_eq_findSome]
  refine ⟨hr, ?_, ?_, extract_pure_order⟩
  · rw [hr]
    simp only [Except.ok.injEq]
    exact findSome_none_iff payloadOf imgs
  · intro pre i post s hsplit hpre hi
    rw [hr, hsplit, findSome_append_first payloadOf pre post i s hpre hi]

theorem classify_first_success_witness :
    read_barcode_from_pdf (mkDoc [([envC2], envZ)])
      = Except.ok ([envC2, envZ].findSome? payloadOf) ∧
    read_barcode_from_pdf (mkDoc [([envC2], envZ)]) = Except.ok (some "A") :=
  ⟨(classify_first_success (mkDoc [([envC2], envZ)]) [envC2, envZ] rfl).1,
   (classify_first_success (mkDoc [([envC2], envZ)]) [envC2, envZ] rfl).2.2.1
     [] envC2 [envZ] "A" rfl (fun j hj => absurd hj (List.not_mem_nil j)) (by decide)⟩

/-- A page whose first embedded image extraction raises. -/
def pageBad : PdfPage := ⟨[Except.error ()], Except.ok envBlank⟩

/-- A document on which extraction fails partway through. -/
def docLeak : PdfDoc := ⟨Except.ok [pageBad]⟩

/-- C8 counterexample: on a document whose first embedded image extraction
raises, extract_images_from_pdf propagates the exception with the document
handle still open: close() (main.py line 90) is only reached on the normal
path, so the resources are not released before the call returns. -/
theorem extract_leak_counterexample :
    (extract_images_from_pdf docLeak).1 = Except.error () ∧
    (extract_images_from_pdf docLeak).2 = true :=
  ⟨rfl, rfl⟩

/-- C8 amended: the document handle is released before the call returns
whenever extraction completes normally, and no handle is created when the
open itself raises; only an exception raised while extracting images
leaves the handle open. -/
theorem extract_close_on_normal_return (doc : PdfDoc) :
    (∀ imgs, (extract_images_from_pdf doc).1 = Except.ok imgs →
      (extract_images_from_pdf doc).2 = false) ∧
    (∀ e, doc.openResult = Except.error e →
      (extract_images_from_pdf doc).2 = false) := by
  constructor
  · intro imgs h
    unfold extract_images_from_pdf at h ⊢
    cases ho : doc.openResult with
    | error e => simp [ho]
    | ok pages =>
      simp only [ho] at h
      simp only [ho]
      cases hp : extractPages pages with
      | error e => simp [hp] at h
      | ok is => simp [hp]
  · intro e h
    unfold extract_images_from_pdf
    simp [h]

theorem extract_close_on_normal_return_witness :
    (extract_images_from_pdf (mkDoc [([envBlank], envZ)])).2 = false :=
  (extract_close_on_normal_return (mkDoc [([envBlank], envZ)])).1 [envBlank, envZ] rfl

theorem fsLookup_erase_self (fs : FS) (k : String) :
    fsLookup (fsErase fs k) k = none := by
  induction fs with
  | nil => rfl
  | cons kv rest ih =>
    by_cases h : kv.1 = k
    · simp [fsErase, h, ih]
    · simp [fsErase, h, fsLookup, ih]

theorem fsLookup_erase_other (fs : FS) (k q : String) (h : q ≠ k) :
    fsLookup (fsErase fs k) q = fsLookup fs q := by
  have hkq : k ≠ q := Ne.symm h
  induction fs with
  | nil => rfl
  | cons kv rest ih =>
    by_cases hk : kv.1 = k
    · simp [fsErase, hk, fsLookup, hkq, ih]
    · simp [fsErase, hk, fsLookup, ih]

theorem fsLookup_moveFile_dst (fs : FS) (src dst c : String)
    (h : fsLookup fs src = some c) :
    fsLookup (moveFile fs src dst) dst = some c := by
  unfold moveFile
  rw [h]
  simp [fsLookup]

theorem fsLookup_moveFile_src (fs : FS) (src dst c : String)
    (h : fsLookup fs src = some c) (hne : src ≠ dst) :
    fsLookup (moveFile fs src dst) src = none := by
  unfold moveFile
  rw [h]
  have hds : dst ≠ src := fun hh => hne hh.symm
  simp only [fsLookup, if_neg hds]
  rw [fsLookup_erase_other (fsErase fs src) dst src hne]
  exact fsLookup_erase_self fs src

/-- C3 amended: for an existing input file, when classification returns a
non-empty (truthy) identifier and the move succeeds, the outcome is
Success and the file now sits in the done directory as identifier.pdf
(replacing any file already there, since the initial filesystem is
arbitrary) and is gone from its source path; when the classification
result is falsy, that is, None or the empty payload, and the move
succeeds, the outcome is NotFound and the file sits under its unchanged
basename in the error directory and is gone from its source path. -/
theorem process_routes (env : ProcEnv) (fs : FS) (c : String)
    (hex : env.exists1 = true)
    (hc : fsLookup fs env.pdfPath = some c) :
    (∀ id, read_barcode_from_pdf env.doc = Except.ok (some id) →
      pyTruthy (some id) = true → env.moveDoneOk = true →
      (process_pdf env).1 = POutcome.success id ∧
      fsLookup (applyActions fs (process_pdf env).2)
        (joinPath env.doneDir (id ++ ".pdf")) = some c ∧
      (env.pdfPath ≠ joinPath env.doneDir (id ++ ".pdf") →
        fsLookup (applyActions fs (process_pdf env).2) env.pdfPath = none)) ∧
    (∀ bd, read_barcode_from_pdf env.doc = Except.ok bd →
      pyTruthy bd = false → env.moveErrOk = true →
      (process_pdf env).1 = POutcome.notFound ∧
      fsLookup (applyActions fs (process_pdf env).2)
        (joinPath env.errorDir env.baseName) = some c ∧
      (env.pdfPath ≠ joinPath env.errorDir env.baseName →
        fsLookup (applyActions fs (process_pdf env).2) env.pdfPath = none)) := by
  constructor
  · intro id hid htr hmv
    have hp : process_pdf env = (POutcome.success id,
        [Act.moveAttempt env.pdfPath (joinPath env.doneDir (id ++ ".pdf")) true,
         Act.status StatusMsg.processedDone]) := by
      simp [process_pdf, hex, hid, htr, moveDoneBranch, hmv]
    rw [hp]
    have happ : applyActions fs
        [Act.moveAttempt env.pdfPath (joinPath env.doneDir (id ++ ".pdf")) true,
         Act.status StatusMsg.processedDone]
        = moveFile fs env.pdfPath (joinPath env.doneDir (id ++ ".pdf")) := rfl
    rw [happ]
    exact ⟨rfl, fsLookup_moveFile_dst fs _ _ c hc,
      fun hne => fsLookup_moveFile_src fs _ _ c hc hne⟩
  · intro bd hid htr hmv
    have hp : process_pdf env = (POutcome.notFound,
        [Act.status StatusMsg.barcodeNotFound,
         Act.moveAttempt env.pdfPath (joinPath env.errorDir env.baseName) true,
         Act.status StatusMsg.movedToError]
          ++ (if env.autoOpen = true then [Act.openFolder env.errorDir] else [])) := by
      cases bd with
      | none => simp [process_pdf, hex, hid, moveErrBranch, hmv]
      | some data => simp [process_pdf, hex, hid, htr, moveErrBranch, hmv]
    rw [hp]
    have happ : applyActions fs
        ([Act.status StatusMsg.barcodeNotFound,
          Act.moveAttempt env.pdfPath (joinPath env.errorDir env.baseName) true,
          Act.status StatusMsg.movedToError]
          ++ (if env.autoOpen = true then [Act.openFolder env.errorDir] else []))
        = moveFile fs env.pdfPath (joinPath env.errorDir env.baseName) := by
      cases hao : env.autoOpen <;> simp [hao, applyActions]
    rw [happ]
    exact ⟨rfl, fsLookup_moveFile_dst fs _ _ c hc,
      fun hne => fsLookup_moveFile_src fs _ _ c hc hne⟩

/-- A ready-made controller environment around a given document; the flags
are the two existence checks and the three move results plus auto-open. -/
def mkEnv (doc : PdfDoc) (e1 mdone merr e2 mrec ao : Bool) : ProcEnv :=
  ⟨doc, "processing/in.pdf", "in.pdf", "error", "done", e1, mdone, merr, e2, mrec, ao⟩

/-- A document that classifies to identifier A. -/
def docA : PdfDoc := mkDoc [([envC2], envZ)]

/-- A zero-page document: classification returns none. -/
def docNone : PdfDoc := mkDoc []

/-- An initial filesystem that already has a file at done/A.pdf, to be
overwritten by the move. -/
def fsInit : FS := [("processing/in.pdf", "payload"), ("done/A.pdf", "old")]

theorem process_routes_witness :
    (process_pdf (mkEnv docA true true true true true false)).1 = POutcome.success "A" ∧
    fsLookup (applyActions fsInit
        (process_pdf (mkEnv docA true true true true true false)).2)
      (joinPath "done" ("A" ++ ".pdf")) = some "payload" ∧
    fsLookup (applyActions fsInit
        (process_pdf (mkEnv docA true true true true true false)).2)
      "processing/in.pdf" = none := by
  have h := (process_routes (mkEnv docA true true true true true false) fsInit "payload"
      rfl (by decide)).1 "A" (by decide) (by decide) rfl
  exact ⟨h.1, h.2.1, h.2.2 (by decide)⟩

/-- A decoded match carrying the empty payload (a zero-data symbol). -/
def bcEmpty : Barcode := ⟨⟨0, 0, 20, 10⟩, ""⟩

/-- A candidate image whose direct decode yields the empty payload. -/
def envEmpty : ImageEnv := ⟨[4, 6], Except.ok [bcEmpty], Except.ok []⟩

/-- A document classifying to the empty string, not to None. -/
def docEmpty : PdfDoc := mkDoc [([envEmpty], envBlank)]

/-- C3 counterexample: classification yields an identifier, the empty
string, on this document, yet the file is not moved to the done directory
with outcome Success: the truthiness test at main.py line 156 sends the
empty payload down the error route, so the outcome is NotFound, the file
ends under its unchanged basename in the error directory, and nothing
appears in the done directory. -/
theorem process_routes_counterexample :
    read_barcode_from_pdf docEmpty = Except.ok (some "") ∧
    (process_pdf (mkEnv docEmpty true true true true true false)).1 = POutcome.notFound ∧
    fsLookup (applyActions fsInit
        (process_pdf (mkEnv docEmpty true true true true true false)).2)
      (joinPath "error" "in.pdf") = some "payload" ∧
    fsLookup (applyActions fsInit
        (process_pdf (mkEnv docEmpty true true true true true false)).2)
      (joinPath "done" ("" ++ ".pdf")) = none := by
  refine ⟨by decide, by decide, by decide, by decide⟩

/-- C6: when the file no longer exists at invocation time, the outcome is
Skipped, the trace contains no move at all, and replaying the trace leaves
any filesystem unchanged. -/
theorem process_missing_skipped (env : ProcEnv) (h : env.exists1 = false) :
    (process_pdf env).1 = POutcome.skipped ∧
    (process_pdf env).2.filter isMove = [] ∧
    (∀ fs : FS, applyActions fs (process_pdf env).2 = fs) := by
  have hp : process_pdf env = (POutcome.skipped, [Act.status StatusMsg.fileNotFound]) := by
    simp [process_pdf, h]
  rw [hp]
  exact ⟨rfl, rfl, fun fs => rfl⟩

theorem process_missing_skipped_witness :
    (process_pdf (mkEnv docA false true true true true false)).1 = POutcome.skipped ∧
    (process_pdf (mkEnv docA false true true true true false)).2.filter isMove = [] ∧
    fsLookup (applyActions fsInit
        (process_pdf (mkEnv docA false true true true true false)).2)
      "processing/in.pdf" = some "payload" := by
  have h := process_missing_skipped (mkEnv docA false true true true true false) rfl
  refine ⟨h.1, h.2.1, ?_⟩
  rw [h.2.2 fsInit]
  decide

/-- Number of shutil.move calls recorded in a trace. -/
def moveCount (tr : List Act) : Nat := (tr.filter isMove).length

/-- Number of status_callback invocations recorded in a trace. -/
def statusCount (tr : List Act) : Nat := (tr.filter isStatus).length

theorem getLast_two {α : Type} (l : List α) (a b : α) :
    (l ++ [a, b]).getLast? = some b := by
  have h : l ++ [a, b] = (l ++ [a]) ++ [b] := by simp
  rw [h, List.getLast?_concat]

theorem handleExc_spec (env : ProcEnv) (pre : List Act) :
    (handleExc env pre).1 = POutcome.failed ∧
    moveCount (handleExc env pre).2
      = moveCount pre + (if env.exists2 = true then 1 else 0) ∧
    (env.exists2 = true → env.moveRecoverOk = false →
      (handleExc env pre).2.getLast? = some (Act.status StatusMsg.moveFailed)) := by
  cases h2 : env.exists2 with
  | false =>
    refine ⟨by simp [handleExc, h2], ?_, ?_⟩
    · simp [handleExc, h2, moveCount, List.filter_append, isMove]
    · intro hx; simp [h2] at hx
  | true =>
    cases hrec : env.moveRecoverOk with
    | true =>
      refine ⟨by simp [handleExc, h2, hrec], ?_, ?_⟩
      · cases hao : env.autoOpen <;>
          simp [handleExc, h2, hrec, hao, moveCount, List.filter_append, isMove, List.filter]
      · intro _ hx; simp [hrec] at hx
    | false =>
      refine ⟨by simp [handleExc, h2, hrec], ?_, ?_⟩
      · simp [handleExc, h2, hrec, moveCount, List.filter_append, isMove, List.filter]
      · intro _ _
        have hred : handleExc env pre
            = (POutcome.failed, (pre ++ [Act.status StatusMsg.processingError])
              ++ [Act.moveAttempt env.pdfPath (joinPath env.errorDir env.baseName) false,
                  Act.status StatusMsg.moveFailed]) := by
          unfold handleExc
          rw [h2, hrec]
          simp
        rw [hred]
        exact getLast_two (pre ++ [Act.status StatusMsg.processingError]) _ _

/-- C7 amended: whenever classification or the primary move raises, the
outcome is Failed and the controller attempts at most one recovery move:
exactly one when the file still exists at the recovery check, none when it
has disappeared; and when the recovery move itself raises, the trace ends
with a reported move-failure status, the exception being swallowed rather
than propagated (process_pdf is total and still returns Failed). -/
theorem process_failure_recovery (env : ProcEnv) (hex : env.exists1 = true) :
    (∀ e, read_barcode_from_pdf env.doc = Except.error e →
      (process_pdf env).1 = POutcome.failed ∧
      moveCount (process_pdf env).2 = (if env.exists2 = true then 1 else 0) ∧
      (env.exists2 = true → env.moveRecoverOk = false →
        (process_pdf env).2.getLast? = some (Act.status StatusMsg.moveFailed))) ∧
    (∀ id, read_barcode_from_pdf env.doc = Except.ok (some id) →
      pyTruthy (some id) = true → env.moveDoneOk = false →
      (process_pdf env).1 = POutcome.failed ∧
      moveCount (process_pdf env).2 = 1 + (if env.exists2 = true then 1 else 0) ∧
      (env.exists2 = true → env.moveRecoverOk = false →
        (process_pdf env).2.getLast? = some (Act.status StatusMsg.moveFailed))) ∧
    (∀ bd, read_barcode_from_pdf env.doc = Except.ok bd →
      pyTruthy bd = false → env.moveErrOk = false →
      (process_pdf env).1 = POutcome.failed ∧
      moveCount (process_pdf env).2 = 1 + (if env.exists2 = true then 1 else 0) ∧
      (env.exists2 = true → env.moveRecoverOk = false →
        (process_pdf env).2.getLast? = some (Act.status StatusMsg.moveFailed))) := by
  refine ⟨?_, ?_, ?_⟩
  · intro e he
    have hp : process_pdf env = handleExc env [] := by
      simp [process_pdf, hex, he]
    rw [hp]
    have h := handleExc_spec env []
    refine ⟨h.1, ?_, h.2.2⟩
    have : moveCount ([] : List Act) = 0 := rfl
    rw [h.2.1, this, Nat.zero_add]
  · intro id hid htr hmd
    have hp : process_pdf env = handleExc env
        [Act.moveAttempt env.pdfPath (joinPath env.doneDir (id ++ ".pdf")) false] := by
      simp [process_pdf, hex, hid, htr, moveDoneBranch, hmd]
    rw [hp]
    have h := handleExc_spec env
        [Act.moveAttempt env.pdfPath (joinPath env.doneDir (id ++ ".pdf")) false]
    refine ⟨h.1, ?_, h.2.2⟩
    have : moveCount [Act.moveAttempt env.pdfPath (joinPath env.doneDir (id ++ ".pdf")) false]
        = 1 := rfl
    rw [h.2.1, this]
  · intro bd hid htr hme
    have hp : process_pdf env = handleExc env
        [Act.status StatusMsg.barcodeNotFound,
         Act.moveAttempt env.pdfPath (joinPath env.errorDir env.baseName) false] := by
      cases bd with
      | none => simp [process_pdf, hex, hid, moveErrBranch, hme]
      | some data => simp [process_pdf, hex, hid, htr, moveErrBranch, hme]
    rw [hp]
    have h := handleExc_spec env
        [Act.status StatusMsg.barcodeNotFound,
         Act.moveAttempt env.pdfPath (joinPath env.errorDir env.baseName) false]
    refine ⟨h.1, ?_, h.2.2⟩
    have : moveCount
        [Act.status StatusMsg.barcodeNotFound,
         Act.moveAttempt env.pdfPath (joinPath env.errorDir env.baseName) false] = 1 := rfl
    rw [h.2.1, this]

/-- A document whose fitz.open raises: classification raises. -/
def docErr : PdfDoc := ⟨Except.error ()⟩

/-- C7 counterexample: classification raises on this invocation, but the
file is gone at the recovery existence check (main.py line 180), so the
controller attempts zero recovery moves, not exactly one. -/
theorem process_failure_no_recovery_counterexample :
    read_barcode_from_pdf docErr = Except.error () ∧
    (process_pdf (mkEnv docErr true true true false true false)).1 = POutcome.failed ∧
    moveCount (process_pdf (mkEnv docErr true true true false true false)).2 = 0 :=
  ⟨rfl, rfl, rfl⟩

theorem process_failure_recovery_witness :
    (process_pdf (mkEnv docErr true true true true false false)).1 = POutcome.failed ∧
    moveCount (process_pdf (mkEnv docErr true true true true false false)).2
      = (if (mkEnv docErr true true true true false false).exists2 = true then 1 else 0) ∧
    (process_pdf (mkEnv docErr true true true true false false)).2.getLast?
      = some (Act.status StatusMsg.moveFailed) := by
  have h := (process_failure_recovery (mkEnv docErr true true true true false false) rfl).1 () rfl
  exact ⟨h.1, h.2.1, h.2.2 rfl rfl⟩

/-- C9 counterexample: a NotFound outcome emits two status lines (the
not-found report at main.py line 166 and the moved-to-error report at
line 171), not exactly one. -/
theorem process_status_counterexample :
    (process_pdf (mkEnv docNone true true true true true false)).1 = POutcome.notFound ∧
    statusCount (process_pdf (mkEnv docNone true true true true true false)).2 = 2 :=
  ⟨rfl, rfl⟩

/-- C9 amended: every invocation of process_pdf emits at least one status
line, whatever the outcome: no outcome is silent. -/
theorem process_always_reports (env : ProcEnv) :
    1 ≤ statusCount (process_pdf env).2 := by
  have hh : ∀ pre, 1 ≤ statusCount (handleExc env pre).2 := by
    intro pre
    cases h2 : env.exists2 with
    | false =>
      simp [handleExc, h2, statusCount, List.filter_append, isStatus, List.filter]
    | true =>
      cases hrec : env.moveRecoverOk with
      | true =>
        cases hao : env.autoOpen <;>
          simp [handleExc, h2, hrec, hao, statusCount, List.filter_append, isStatus,
            List.filter]
      | false =>
        simp [handleExc, h2, hrec, statusCount, List.filter_append, isStatus, List.filter]
  have hdone : ∀ data, 1 ≤ statusCount (moveDoneBranch env data).2 := by
    intro data
    cases hmd : env.moveDoneOk with
    | true => simp [moveDoneBranch, hmd, statusCount, isStatus, List.filter]
    | false => simpa [moveDoneBranch, hmd] using hh _
  have herr : 1 ≤ statusCount (moveErrBranch env).2 := by
    cases hme : env.moveErrOk with
    | true =>
      cases hao : env.autoOpen <;>
        simp [moveErrBranch, hme, hao, statusCount, isStatus, List.filter,
          List.filter_append]
    | false => simpa [moveErrBranch, hme] using hh _
  cases he1 : env.exists1 with
  | false => simp [process_pdf, he1, statusCount, isStatus, List.filter]
  | true =>
    cases hr : read_barcode_from_pdf env.doc with
    | error e => simpa [process_pdf, he1, hr] using hh []
    | ok o =>
      cases o with
      | some id =>
        cases htr : pyTruthy (some id) with
        | true => simpa [process_pdf, he1, hr, htr] using hdone id
        | false => simpa [process_pdf, he1, hr, htr] using herr
      | none => simpa [process_pdf, he1, hr] using herr

/-- C10: a filename that does not end in .pdf case-insensitively is never
handed to process_pdf: the creation-event handler performs no action at
all for it (no status, no move), and the startup pass filters it out of
its processing targets. -/
theorem non_pdf_ignored (name : String) (h : isPdfName name = false) :
    (∀ d env, on_created d name env = []) ∧
    (∀ listing : List String, name ∉ process_existing_pdfs_targets listing) := by
  constructor
  · intro d env
    simp [on_created, h]
  · intro listing hmem
    have hf := List.mem_filter.mp hmem
    rw [h] at hf
    exact absurd hf.2 (by simp)

theorem non_pdf_ignored_witness :
    on_created false "REPORT.TXT" (mkEnv docA true true true true true false) = [] ∧
    "REPORT.TXT" ∉ process_existing_pdfs_targets ["a.pdf", "REPORT.TXT"] :=
  ⟨(non_pdf_ignored "REPORT.TXT" (by decide)).1 false (mkEnv docA true true true true true false),
   (non_pdf_ignored "REPORT.TXT" (by decide)).2 ["a.pdf", "REPORT.TXT"]⟩
